import Mathlib

/-!
Verification of the request-dispatch core of a small asynchronous HTTP
server framework (router, response builder, error taxonomy, dispatch
boundary).  Pure shallow embedding: the parts of each Rust function that
the properties depend on are translated into executable Lean definitions;
awaited futures become plain function application; the external transport
(hyper) request/response types are modelled by the fields the core reads.
-/

set_option maxHeartbeats 1000000

/-- The framework's own method enumeration (src/router.rs, `enum Method`). -/
inductive Method where
  | GET | POST | PUT | DELETE | PATCH | HEAD | OPTIONS
deriving DecidableEq, Repr

/-- The transport's native method type (hyper::Method): the seven standard
methods the framework recognises, the two further standard methods hyper
defines (CONNECT, TRACE), and arbitrary extension methods carrying their
raw string. -/
inductive HttpMethod where
  | GET | POST | PUT | DELETE | PATCH | HEAD | OPTIONS | CONNECT | TRACE
  | Extension (s : String)
deriving DecidableEq, Repr

/-- `impl From<&HttpMethod> for Method` (src/router.rs lines 17-30): the
seven named methods map to their namesakes, everything else falls to the
`_ => Method::GET` default arm. -/
def Method.fromHttp (method : HttpMethod) : Method :=
  match method with
  | HttpMethod.GET => Method.GET
  | HttpMethod.POST => Method.POST
  | HttpMethod.PUT => Method.PUT
  | HttpMethod.DELETE => Method.DELETE
  | HttpMethod.PATCH => Method.PATCH
  | HttpMethod.HEAD => Method.HEAD
  | HttpMethod.OPTIONS => Method.OPTIONS
  | _ => Method.GET

/-- `format!("{:?}", method)`: the derived Debug form of a fieldless enum
variant is its name. -/
def Method.debugFmt : Method → String
  | Method.GET => "GET"
  | Method.POST => "POST"
  | Method.PUT => "PUT"
  | Method.DELETE => "DELETE"
  | Method.PATCH => "PATCH"
  | Method.HEAD => "HEAD"
  | Method.OPTIONS => "OPTIONS"

/-- hyper::Method's Display implementation, used by the log lines in
src/server.rs: the method name, or the raw string of an extension method. -/
def HttpMethod.display : HttpMethod → String
  | HttpMethod.GET => "GET"
  | HttpMethod.POST => "POST"
  | HttpMethod.PUT => "PUT"
  | HttpMethod.DELETE => "DELETE"
  | HttpMethod.PATCH => "PATCH"
  | HttpMethod.HEAD => "HEAD"
  | HttpMethod.OPTIONS => "OPTIONS"
  | HttpMethod.CONNECT => "CONNECT"
  | HttpMethod.TRACE => "TRACE"
  | HttpMethod.Extension s => s

/-- `ServerError` (src/error.rs).  Variants wrapping a foreign error type
(http::Error, hyper::Error, std::io::Error, serde_json::Error) carry that
inner error's display string, which is all the code ever reads of them. -/
inductive ServerError where
  | Http (s : String)
  | Hyper (s : String)
  | Io (s : String)
  | Json (s : String)
  | RouteNotFound (method : String) (path : String)
  | BadRequest (s : String)
  | Internal (s : String)
deriving DecidableEq, Repr

/-- `ServerError::status_code` (src/error.rs lines 30-38), with
hyper::StatusCode rendered by its numeric value. -/
def ServerError.status_code : ServerError → Nat
  | ServerError.RouteNotFound _ _ => 404
  | ServerError.BadRequest _ => 400
  | _ => 500

/-- The thiserror-derived Display implementation of ServerError
(the `#[error("...")]` attributes in src/error.rs). -/
def ServerError.display : ServerError → String
  | ServerError.Http s => "HTTP error: " ++ s
  | ServerError.Hyper s => "Hyper error: " ++ s
  | ServerError.Io s => "IO error: " ++ s
  | ServerError.Json s => "JSON parsing error: " ++ s
  | ServerError.RouteNotFound method path => "Route not found: " ++ method ++ " " ++ path
  | ServerError.BadRequest s => "Bad request: " ++ s
  | ServerError.Internal s => "Internal server error: " ++ s

/-- The parts of a parsed hyper::Request the dispatch core reads: the
native method (`req.method()`) and the URI path (`req.uri().path()`). -/
structure Request where
  method : HttpMethod
  path : String
deriving DecidableEq, Repr

/-- `Response` (src/response.rs): status code, header map (string to
string), body.  The HashMap is modelled as an association list whose
insert replaces the value of an existing key (last write wins per key);
the hyper::Body payloads the framework constructs are all strings, with
`Body::empty()` the empty string. -/
structure Response where
  status : Nat
  headers : List (String × String)
  body : String
deriving DecidableEq, Repr

/-- HashMap::insert semantics on the association-list model: replace the
value of an existing key in place, otherwise append the new pair. -/
def upsert : List (String × String) → String → String → List (String × String)
  | [], k, v => [(k, v)]
  | (k', v') :: rest, k, v =>
    if k' = k then (k, v) :: rest else (k', v') :: upsert rest k v

/-- `Response::new` (status 200, empty headers, empty body). -/
def Response.new : Response := ⟨200, [], ""⟩

/-- `Response::status`. -/
def Response.setStatus (r : Response) (status : Nat) : Response :=
  { r with status := status }

/-- `Response::header` (HashMap::insert). -/
def Response.header (r : Response) (key value : String) : Response :=
  { r with headers := upsert r.headers key value }

/-- `Response::body`. -/
def Response.setBody (r : Response) (body : String) : Response :=
  { r with body := body }

/-- `Response::text`. -/
def Response.text (r : Response) (s : String) : Response :=
  (r.header "Content-Type" "text/plain").setBody s

/-- `Response::html`. -/
def Response.html (r : Response) (s : String) : Response :=
  (r.header "Content-Type" "text/html").setBody s

/-- `Response::json` (src/response.rs lines 58-66).  The call
`serde_json::to_string(value)` is external serde code; its outcome is the
`ser` argument (the serialised string, or the serde error's display
string).  The `?` operator converts a serde error into `ServerError::Json`
via the derived From impl. -/
def Response.json (r : Response) (ser : Except String String) : Except ServerError Response :=
  match ser with
  | Except.error e => Except.error (ServerError.Json e)
  | Except.ok json => Except.ok ((r.header "Content-Type" "application/json").setBody json)

/-- A `Route` (src/router.rs): method, path, and the boxed handler.  The
awaited handler future is modelled as the function's result. -/
structure Route where
  method : Method
  path : String
  handler : Request → Except ServerError Response

/-- `Router` (src/router.rs): the ordered route list. -/
structure Router where
  routes : List Route

/-- `Router::new`. -/
def Router.new : Router := ⟨[]⟩

/-- `Router::route`: push a Route (generic registration). -/
def Router.route (r : Router) (method : Method) (path : String)
    (handler : Request → Except ServerError Response) : Router :=
  ⟨r.routes ++ [⟨method, path, handler⟩]⟩

/-- `Router::get`. -/
def Router.get (r : Router) (path : String)
    (handler : Request → Except ServerError Response) : Router :=
  r.route Method.GET path handler

/-- `Router::post`. -/
def Router.post (r : Router) (path : String)
    (handler : Request → Except ServerError Response) : Router :=
  r.route Method.POST path handler

/-- `Router::path_matches` (src/router.rs lines 131-135): exact string
equality, nothing else. -/
def path_matches (route_path request_path : String) : Bool :=
  route_path == request_path

/-- The `for route in &self.routes` loop body of `Router::handle`. -/
def findDispatch (method : Method) (path : String) (req : Request) :
    List Route → Except ServerError Response
  | [] => Except.error (ServerError.RouteNotFound method.debugFmt path)
  | route :: rest =>
    if route.method == method && path_matches route.path path then
      route.handler req
    else
      findDispatch method path req rest

/-- `Router::handle` (src/router.rs lines 114-129): compute the framework
method from the transport method and the raw path, scan the routes in
order, dispatch to the first match, otherwise RouteNotFound. -/
def Router.handle (r : Router) (req : Request) : Except ServerError Response :=
  findDispatch (Method.fromHttp req.method) req.path req r.routes

/-- The transport-level response the dispatch boundary hands back to
hyper: the fields of hyper::Response the core sets. -/
structure HyperResponse where
  status : Nat
  headers : List (String × String)
  body : String
deriving DecidableEq, Repr

/-- Valid HTTP header-name characters (the http crate's token set):
alphanumerics and the RFC 7230 token specials. -/
def isTokenChar (c : Char) : Bool :=
  c.isAlphanum || c = Char.ofNat 33 || c = Char.ofNat 35 || c = Char.ofNat 36 ||
  c = Char.ofNat 37 || c = Char.ofNat 38 || c = Char.ofNat 39 || c = Char.ofNat 42 ||
  c = Char.ofNat 43 || c = Char.ofNat 45 || c = Char.ofNat 46 || c = Char.ofNat 94 ||
  c = Char.ofNat 95 || c = Char.ofNat 96 || c = Char.ofNat 124 || c = Char.ofNat 126

/-- http::HeaderName validity: nonempty and all token characters. -/
def validHeaderName (s : String) : Bool :=
  s ≠ "" && s.data.all isTokenChar

/-- http::HeaderValue validity: horizontal tab or any byte from 32 up,
excluding DEL. -/
def validHeaderValue (s : String) : Bool :=
  s.data.all fun c => c = Char.ofNat 9 || (32 ≤ c.toNat && c.toNat ≠ 127)

/-- The header-insertion loop of hyper's response Builder: each
`.header(key, value)` call parses the name and value and records the
first failure, surfaced as an http::Error when `.body` finalises. -/
def buildHeaders : List (String × String) → Except String Unit
  | [] => Except.ok ()
  | (k, v) :: rest =>
    if !validHeaderName k then Except.error "invalid HTTP header name"
    else if !validHeaderValue v then Except.error "failed to parse header value"
    else buildHeaders rest

/-- hyper::Response::builder().status(..).header(..)*.body(..): the status
argument is an already-validated StatusCode and the body is unchecked, so
only header parsing can fail. -/
def buildHyper (status : Nat) (headers : List (String × String)) (body : String) :
    Except String HyperResponse :=
  match buildHeaders headers with
  | Except.error m => Except.error m
  | Except.ok _ => Except.ok ⟨status, headers, body⟩

/-- `Response::into_hyper_response` (src/response.rs lines 68-76): builder
seeded with the Response's status, one `.header` call per map entry, body
moved across; a builder failure becomes `ServerError::Http` via `?`. -/
def Response.into_hyper_response (r : Response) : Except ServerError HyperResponse :=
  match buildHyper r.status r.headers r.body with
  | Except.error m => Except.error (ServerError.Http m)
  | Except.ok hr => Except.ok hr

/-- The body string `format!("\x7b\x7b\"error\": \"\x7b\x7d\"\x7d\x7d", error)`
builds in `error_response`: raw interpolation of the error's display
message, with no JSON escaping. -/
def jsonErrorBody (e : ServerError) : String :=
  "\x7b\x22error\x22: \x22" ++ e.display ++ "\x22\x7d"

/-- `error_response` (src/server.rs lines 143-157).  The final `.unwrap()`
of the plain fallback is modelled as `none` (a panic), so that its
unreachability is a provable statement rather than an assumption. -/
def error_response (e : ServerError) : Option HyperResponse :=
  let status := e.status_code
  let body := jsonErrorBody e
  match buildHyper status [("Content-Type", "application/json")] body with
  | Except.ok r => some r
  | Except.error _ =>
    match buildHyper 500 [] "Internal Server Error" with
    | Except.ok r => some r
    | Except.error _ => none

/-- tracing severities used by the dispatch boundary. -/
inductive LogLevel where
  | info | warn | fail
deriving DecidableEq, Repr

/-- One emitted log line: severity and formatted text. -/
structure LogLine where
  level : LogLevel
  text : String
deriving DecidableEq, Repr

/-- `handle_request` (src/server.rs lines 113-141).  Returns the wire
response paired with the log lines emitted for this request, in order;
`none` only on the (unreachable) panic inside `error_response`.  The
success branch logs the literal text "200"; the error branches log the
mapped status, at warn severity for 404 and error severity otherwise. -/
def handle_request (router : Router) (req : Request) :
    Option (HyperResponse × List LogLine) :=
  let method := req.method.display
  let path := req.path
  match router.handle req with
  | Except.ok response =>
    match response.into_hyper_response with
    | Except.ok hyper_response =>
      some (hyper_response, [⟨LogLevel.info, method ++ " " ++ path ++ " - 200"⟩])
    | Except.error e =>
      (error_response e).map fun r =>
        (r, [⟨LogLevel.fail, "Response conversion error: " ++ e.display⟩])
  | Except.error e =>
    let status_code := e.status_code
    let line :=
      if status_code = 404 then
        LogLine.mk LogLevel.warn (method ++ " " ++ path ++ " - 404")
      else
        LogLine.mk LogLevel.fail
          (method ++ " " ++ path ++ " - " ++ toString status_code ++ " (" ++ e.display ++ ")")
    (error_response e).map fun r => (r, [line])

/-- JSON single-character escapes: the character a backslash-escape code
denotes.  (`\uXXXX` escapes are not modelled; no positive statement below
relies on them, and the code under verification never emits them.) -/
def unescapeChar (c : Char) : Option Char :=
  if c = Char.ofNat 34 then some (Char.ofNat 34)
  else if c = Char.ofNat 92 then some (Char.ofNat 92)
  else if c = Char.ofNat 47 then some (Char.ofNat 47)
  else if c = 'n' then some (Char.ofNat 10)
  else if c = 't' then some (Char.ofNat 9)
  else if c = 'r' then some (Char.ofNat 13)
  else if c = 'b' then some (Char.ofNat 8)
  else if c = 'f' then some (Char.ofNat 12)
  else none

/-- Scanner for the inside of a JSON string literal, just after the
opening quote.  The flag is true when the previous character was an
unconsumed backslash.  Returns the decoded string value and the input
remaining after the closing quote, or `none` when the characters are not
a well-formed JSON string literal. -/
def scanJsonStrAux : Bool → List Char → Option (List Char × List Char)
  | _, [] => none
  | true, c :: rest =>
    match unescapeChar c, scanJsonStrAux false rest with
    | some d, some (v, r) => some (d :: v, r)
    | _, _ => none
  | false, c :: rest =>
    if c = Char.ofNat 34 then some ([], rest)
    else if c = Char.ofNat 92 then scanJsonStrAux true rest
    else if c.toNat < 32 then none
    else
      match scanJsonStrAux false rest with
      | some (v, r) => some (c :: v, r)
      | none => none

/-- The fixed opening text of the error body up to and including the
opening quote of the message: `{"error": "`. -/
def errHead : List Char := ("\x7b\x22error\x22: \x22").data

/-- Decides whether a string is a valid JSON object of the exact shape
`{"error": "<value>"}` (single key "error", string value, the literal
spacing `error_response` uses) and returns the decoded string value. -/
def parseErrorShape (s : String) : Option String :=
  let cs := s.data
  if cs.take errHead.length = errHead then
    match scanJsonStrAux false (cs.drop errHead.length) with
    | some (v, rest) => if rest = [Char.ofNat 125] then some (String.mk v) else none
    | none => none
  else none

/-- A character the raw interpolation in `error_response` copies into a
JSON string literal unchanged and unambiguously: not a quote, not a
backslash, not a control character. -/
def isPlainChar (c : Char) : Bool :=
  c ≠ Char.ofNat 34 && c ≠ Char.ofNat 92 && 32 ≤ c.toNat

/-- The route-scan predicate of `Router::handle`: method equality and
exact path equality. -/
def routeTest (m : Method) (p : String) (rt : Route) : Bool :=
  rt.method == m && path_matches rt.path p

theorem routeTest_eq_true (m : Method) (p : String) (rt : Route) :
    routeTest m p rt = true ↔ (rt.method = m ∧ rt.path = p) := by
  simp [routeTest, path_matches]

theorem routeTest_eq_false (m : Method) (p : String) (rt : Route) :
    routeTest m p rt = false ↔ ¬ (rt.method = m ∧ rt.path = p) := by
  rw [← Bool.not_eq_true, routeTest_eq_true]

theorem findDispatch_first (m : Method) (p : String) (req : Request)
    (routes : List Route) :
    ∀ (i : Nat) (hi : i < routes.length),
      (routes.get ⟨i, hi⟩).method = m → (routes.get ⟨i, hi⟩).path = p →
      (∀ j, (hj : j < i) →
        ¬ ((routes.get ⟨j, Nat.lt_trans hj hi⟩).method = m
           ∧ (routes.get ⟨j, Nat.lt_trans hj hi⟩).path = p)) →
      findDispatch m p req routes = (routes.get ⟨i, hi⟩).handler req := by
  induction routes with
  | nil => intro i hi; exact absurd hi (by simp)
  | cons route rest ih =>
    intro i hi hm hp hfirst
    match i with
    | 0 =>
      simp only [List.get] at hm hp ⊢
      have hcond : routeTest m p route = true := (routeTest_eq_true m p route).2 ⟨hm, hp⟩
      simp only [findDispatch]
      rw [show (route.method == m && path_matches route.path p) = routeTest m p route from rfl,
        hcond]
      simp
    | Nat.succ i =>
      have h0 : ¬ (route.method = m ∧ route.path = p) := by
        simpa using hfirst 0 (Nat.succ_pos i)
      have hcond : routeTest m p route = false := (routeTest_eq_false m p route).2 h0
      simp only [List.get] at hm hp ⊢
      simp only [findDispatch]
      rw [show (route.method == m && path_matches route.path p) = routeTest m p route from rfl,
        hcond]
      simp only [Bool.false_eq_true, if_false]
      exact ih i (Nat.lt_of_succ_lt_succ hi) hm hp
        (fun j hj => hfirst (j + 1) (Nat.succ_lt_succ hj))

/-- C1: `Router.handle` scans the registered Routes in insertion order and
dispatches to the handler of the first Route whose method equals the
request's (converted) method and whose path equals the request's path
under exact string equality — if the route at index `i` matches and no
earlier route does, the result is exactly that route's handler applied to
the request; with duplicate registrations for one (method, path), the
earlier one therefore always wins. -/
theorem router_handle_first_match (router : Router) (req : Request)
    (i : Nat) (hi : i < router.routes.length)
    (hm : (router.routes.get ⟨i, hi⟩).method = Method.fromHttp req.method)
    (hp : (router.routes.get ⟨i, hi⟩).path = req.path)
    (hfirst : ∀ j, (hj : j < i) →
      ¬ ((router.routes.get ⟨j, Nat.lt_trans hj hi⟩).method = Method.fromHttp req.method
         ∧ (router.routes.get ⟨j, Nat.lt_trans hj hi⟩).path = req.path)) :
    router.handle req = (router.routes.get ⟨i, hi⟩).handler req :=
  findDispatch_first (Method.fromHttp req.method) req.path req router.routes i hi hm hp hfirst

/-- A router with two routes registered on GET /dup, the earlier handler
answering "first" and the later "second". -/
def dupRouter : Router :=
  (Router.new.get "/dup" fun _ => Except.ok (Response.new.text "first")).get "/dup"
    fun _ => Except.ok (Response.new.text "second")

/-- A GET request for /dup. -/
def dupReq : Request := ⟨HttpMethod.GET, "/dup"⟩

/-- Witness for C1: on the duplicate-registration router, dispatch goes to
the earlier handler, whose distinguishable body "first" is returned. -/
theorem router_handle_first_match_witness :
    dupRouter.handle dupReq =
      Except.ok ⟨200, [("Content-Type", "text/plain")], "first"⟩ := by
  have h := router_handle_first_match dupRouter dupReq 0 (by decide) (by decide) (by decide)
    (fun j hj => absurd hj (Nat.not_lt_zero j))
  exact h.trans rfl

theorem findDispatch_characterization (m : Method) (p : String) (req : Request)
    (routes : List Route) :
    (∃ rt, routes.find? (routeTest m p) = some rt
      ∧ findDispatch m p req routes = rt.handler req)
    ∨ (routes.find? (routeTest m p) = none
      ∧ findDispatch m p req routes =
          Except.error (ServerError.RouteNotFound m.debugFmt p)) := by
  induction routes with
  | nil => exact Or.inr ⟨rfl, rfl⟩
  | cons route rest ih =>
    have hunfold : findDispatch m p req (route :: rest) =
        if routeTest m p route then route.handler req else findDispatch m p req rest := rfl
    by_cases h : routeTest m p route = true
    · refine Or.inl ⟨route, ?_, ?_⟩
      · rw [List.find?_cons_of_pos _ h]
      · rw [hunfold, h, if_pos rfl]
    · have hfalse : routeTest m p route = false := by
        cases hb : routeTest m p route
        · rfl
        · exact absurd hb h
      rw [hunfold, hfalse]
      simp only [Bool.false_eq_true, if_false]
      rw [List.find?_cons_of_neg _ (by simp [hfalse])]
      exact ih

/-- C4: the only way `Router.handle` produces a result other than the
matched handler's own is when no route matches — in that case the result
is exactly `RouteNotFound` carrying the debug-formatted method name and
the raw request path; when some route matches, the result (success or
error alike) is the first matching route's handler output, propagated
unchanged. -/
theorem router_handle_error_characterization (router : Router) (req : Request) :
    (∃ rt, router.routes.find? (routeTest (Method.fromHttp req.method) req.path) = some rt
      ∧ router.handle req = rt.handler req)
    ∨ (router.routes.find? (routeTest (Method.fromHttp req.method) req.path) = none
      ∧ router.handle req =
          Except.error
            (ServerError.RouteNotFound (Method.fromHttp req.method).debugFmt req.path)) :=
  findDispatch_characterization (Method.fromHttp req.method) req.path req router.routes

/-- C2: `ServerError.status_code` is a deterministic total function over
the error taxonomy — RouteNotFound yields 404, BadRequest yields 400, and
each of the remaining variants (HTTP/transport, Hyper, I/O, JSON
serialization, Internal) yields 500. -/
theorem status_code_total_map :
    (∀ m p, (ServerError.RouteNotFound m p).status_code = 404)
    ∧ (∀ s, (ServerError.BadRequest s).status_code = 400)
    ∧ (∀ s, (ServerError.Http s).status_code = 500)
    ∧ (∀ s, (ServerError.Hyper s).status_code = 500)
    ∧ (∀ s, (ServerError.Io s).status_code = 500)
    ∧ (∀ s, (ServerError.Json s).status_code = 500)
    ∧ (∀ s, (ServerError.Internal s).status_code = 500) :=
  ⟨fun _ _ => rfl, fun _ => rfl, fun _ => rfl, fun _ => rfl, fun _ => rfl,
   fun _ => rfl, fun _ => rfl⟩

/-- C5: the conversion from the transport's native method type to the
Method enumeration is total — GET, POST, PUT, DELETE, PATCH, HEAD and
OPTIONS map to their namesakes, and every other method (hyper's CONNECT
and TRACE, and every extension method) maps to Method.GET. -/
theorem method_fromHttp_total :
    Method.fromHttp HttpMethod.GET = Method.GET
    ∧ Method.fromHttp HttpMethod.POST = Method.POST
    ∧ Method.fromHttp HttpMethod.PUT = Method.PUT
    ∧ Method.fromHttp HttpMethod.DELETE = Method.DELETE
    ∧ Method.fromHttp HttpMethod.PATCH = Method.PATCH
    ∧ Method.fromHttp HttpMethod.HEAD = Method.HEAD
    ∧ Method.fromHttp HttpMethod.OPTIONS = Method.OPTIONS
    ∧ Method.fromHttp HttpMethod.CONNECT = Method.GET
    ∧ Method.fromHttp HttpMethod.TRACE = Method.GET
    ∧ ∀ s, Method.fromHttp (HttpMethod.Extension s) = Method.GET :=
  ⟨rfl, rfl, rfl, rfl, rfl, rfl, rfl, rfl, rfl, fun _ => rfl⟩

theorem lookup_upsert_self (hs : List (String × String)) (k v : String) :
    List.lookup k (upsert hs k v) = some v := by
  induction hs with
  | nil => simp [upsert, List.lookup]
  | cons pair rest ih =>
    obtain ⟨k', v'⟩ := pair
    by_cases h : k' = k
    · simp [upsert, h, List.lookup]
    · have hbk : (k == k') = false := beq_eq_false_iff_ne.mpr (Ne.symm h)
      simp [upsert, if_neg h, List.lookup, hbk, ih]

theorem lookup_upsert_ne (hs : List (String × String)) (k0 v k : String)
    (h : k ≠ k0) : List.lookup k (upsert hs k0 v) = List.lookup k hs := by
  have hb0 : (k == k0) = false := beq_eq_false_iff_ne.mpr h
  induction hs with
  | nil => simp [upsert, List.lookup, hb0]
  | cons pair rest ih =>
    obtain ⟨k', v'⟩ := pair
    by_cases hk : k' = k0
    · subst hk
      simp [upsert, List.lookup, hb0]
    · simp only [upsert, if_neg hk, List.lookup]
      cases hbk : k == k'
      · simpa [hbk] using ih
      · simp

/-- C6: `Response.json` fails exactly when serialization fails, and then
with the Json (serialization) error variant; when serialization succeeds
the result's Content-Type header is exactly application/json and its body
is the serialised string, so any parser that inverts the serialisation on
this value recovers it from the body (round-trip). -/
theorem response_json_spec (r : Response) (ser : Except String String) :
    (∀ e, ser = Except.error e → r.json ser = Except.error (ServerError.Json e))
    ∧ (∀ s, ser = Except.ok s →
        ∃ r', r.json ser = Except.ok r'
          ∧ List.lookup "Content-Type" r'.headers = some "application/json"
          ∧ r'.body = s)
    ∧ (∀ (α : Type) (v : α) (parse : String → Except String α) (s : String),
        ser = Except.ok s → parse s = Except.ok v →
        ∃ r', r.json ser = Except.ok r' ∧ parse r'.body = Except.ok v) := by
  refine ⟨fun e he => by rw [he]; rfl, fun s hs => ?_, fun α v parse s hs hp => ?_⟩
  · subst hs
    exact ⟨_, rfl, by simpa [Response.json, Response.header, Response.setBody] using
      lookup_upsert_self r.headers "Content-Type" "application/json", rfl⟩
  · subst hs
    exact ⟨_, rfl, by simpa [Response.json, Response.header, Response.setBody] using hp⟩

/-- Witness for C6: on a fresh Response, a failing serialisation yields
the Json error; the successful serialisation "42" yields body "42" with
Content-Type application/json, and a parser inverting it on "42" recovers
the value 42 from the body. -/
theorem response_json_spec_witness :
    Response.new.json (Except.error "boom") = Except.error (ServerError.Json "boom")
    ∧ (∃ r', Response.new.json (Except.ok "42") = Except.ok r'
        ∧ List.lookup "Content-Type" r'.headers = some "application/json"
        ∧ r'.body = "42")
    ∧ (∃ r', Response.new.json (Except.ok "42") = Except.ok r'
        ∧ (fun s => if s = "42" then Except.ok 42 else Except.error "no") r'.body
            = Except.ok (42 : Nat)) :=
  ⟨(response_json_spec Response.new (Except.error "boom")).1 "boom" rfl,
   (response_json_spec Response.new (Except.ok "42")).2.1 "42" rfl,
   (response_json_spec Response.new (Except.ok "42")).2.2 Nat 42
     (fun s => if s = "42" then Except.ok 42 else Except.error "no") "42" rfl (by simp)⟩

/-- C10: when serialization succeeds, `Response.json` changes only the
body and the Content-Type header — the status and every header under any
other key are exactly those of the receiver. -/
theorem response_json_frame (r : Response) (s : String) (r' : Response)
    (h : r.json (Except.ok s) = Except.ok r') :
    r'.status = r.status
    ∧ ∀ k, k ≠ "Content-Type" →
        List.lookup k r'.headers = List.lookup k r.headers := by
  have hr' : r' = (r.header "Content-Type" "application/json").setBody s :=
    (Except.ok.inj (show
      Except.ok ((r.header "Content-Type" "application/json").setBody s) =
        Except.ok r' from h)).symm
  subst hr'
  exact ⟨rfl, fun k hk => by
    simpa [Response.header, Response.setBody] using
      lookup_upsert_ne r.headers "Content-Type" "application/json" k hk⟩

/-- A response with a non-default status and a custom header already set,
to exercise the frame condition of `Response.json`. -/
def framedResp : Response := (Response.new.setStatus 201).header "X-Custom" "1"

/-- Witness for C10: a status (201) and a custom header set before calling
`json` survive unchanged in the result. -/
theorem response_json_frame_witness :
    (Response.mk 201 [("X-Custom", "1"), ("Content-Type", "application/json")] "x").status
      = framedResp.status
    ∧ List.lookup "X-Custom"
        (Response.mk 201 [("X-Custom", "1"), ("Content-Type", "application/json")] "x").headers
      = List.lookup "X-Custom" framedResp.headers := by
  have h := response_json_frame framedResp "x"
    (Response.mk 201 [("X-Custom", "1"), ("Content-Type", "application/json")] "x") rfl
  exact ⟨h.1, h.2 "X-Custom" (by decide)⟩

deriving instance DecidableEq for Except

theorem buildHeaders_ct :
    buildHeaders [("Content-Type", "application/json")] = Except.ok () := by decide

theorem error_response_eq (e : ServerError) :
    error_response e =
      some ⟨e.status_code, [("Content-Type", "application/json")], jsonErrorBody e⟩ := by
  simp [error_response, buildHyper, buildHeaders_ct]

/-- C9: the bare-500 fallback construction inside `error_response` can
never fail, and in fact is never reached — for every error the first
(JSON) construction succeeds, so the dispatch boundary returns a response
for every error. -/
theorem error_response_never_fails :
    (∀ e, error_response e =
      some ⟨e.status_code, [("Content-Type", "application/json")], jsonErrorBody e⟩)
    ∧ buildHyper 500 [] "Internal Server Error" =
        Except.ok ⟨500, [], "Internal Server Error"⟩ :=
  ⟨error_response_eq, rfl⟩

theorem scanJsonStrAux_plain (cs tail : List Char)
    (h : cs.all isPlainChar = true) :
    scanJsonStrAux false (cs ++ Char.ofNat 34 :: tail) = some (cs, tail) := by
  induction cs with
  | nil => simp [scanJsonStrAux]
  | cons c rest ih =>
    simp only [List.all_cons, Bool.and_eq_true] at h
    obtain ⟨hc, hrest⟩ := h
    simp only [isPlainChar, Bool.and_eq_true, decide_eq_true_eq] at hc
    obtain ⟨⟨h1, h2⟩, h3⟩ := hc
    have h3' : ¬ c.toNat < 32 := by omega
    simp only [List.cons_append, scanJsonStrAux]
    rw [if_neg h1, if_neg h2, if_neg h3']
    rw [show List.append rest (Char.ofNat 34 :: tail) = rest ++ Char.ofNat 34 :: tail from rfl]
    rw [ih hrest]

theorem parseErrorShape_of_plain (m : String) (h : m.data.all isPlainChar = true) :
    parseErrorShape ("\x7b\x22error\x22: \x22" ++ m ++ "\x22\x7d") = some m := by
  have hdata : ("\x7b\x22error\x22: \x22" ++ m ++ "\x22\x7d").data
      = errHead ++ (m.data ++ Char.ofNat 34 :: [Char.ofNat 125]) := by
    rw [String.data_append, String.data_append]
    rw [show ("\x22\x7d").data = Char.ofNat 34 :: [Char.ofNat 125] from rfl]
    rfl
  have htake : (errHead ++ (m.data ++ Char.ofNat 34 :: [Char.ofNat 125])).take errHead.length
      = errHead := List.take_left errHead _
  have hdrop : (errHead ++ (m.data ++ Char.ofNat 34 :: [Char.ofNat 125])).drop errHead.length
      = m.data ++ Char.ofNat 34 :: [Char.ofNat 125] := List.drop_left errHead _
  simp only [parseErrorShape, hdata, htake, hdrop, if_pos rfl]
  rw [scanJsonStrAux_plain m.data [Char.ofNat 125] h]
  simp only [if_pos rfl]
  cases m
  rfl

/-- C3 (amended): for every ServerError, the wire error response has the
mapped status, the single header Content-Type: application/json, and a
body that is exactly the interpolated text `{"error": "<m>"}` for the
error's display message m.  Because the interpolation performs no JSON
escaping, that body is a valid JSON object of this shape — parsing it
back recovers m — (only) when m contains no double-quote, backslash, or
control character; it is not valid JSON for every possible message. -/
theorem error_response_wire_shape (e : ServerError) :
    error_response e =
      some ⟨e.status_code, [("Content-Type", "application/json")],
        "\x7b\x22error\x22: \x22" ++ e.display ++ "\x22\x7d"⟩
    ∧ ((e.display).data.all isPlainChar = true →
        parseErrorShape ("\x7b\x22error\x22: \x22" ++ e.display ++ "\x22\x7d")
          = some e.display) :=
  ⟨error_response_eq e, fun h => parseErrorShape_of_plain e.display h⟩

/-- Counterexample to C3 as stated: for the error
`Internal("say "hi"")` — a message a handler can legally produce — the
emitted body is the raw interpolation, which is NOT a valid JSON object
of the shape `{"error": "<string>"}` (the unescaped inner quotes break
the string literal), refuting "the body is always valid JSON of that
shape, for every possible error message". -/
theorem error_response_wire_shape_counterexample :
    error_response (ServerError.Internal "say \x22hi\x22") =
      some ⟨500, [("Content-Type", "application/json")],
        "\x7b\x22error\x22: \x22Internal server error: say \x22hi\x22\x22\x7d"⟩
    ∧ parseErrorShape
        "\x7b\x22error\x22: \x22Internal server error: say \x22hi\x22\x22\x7d" = none :=
  ⟨(error_response_eq (ServerError.Internal "say \x22hi\x22")).trans (by rfl), by decide⟩

/-- Witness for C3 (amended): for `BadRequest("oops")` the response is a
400 with Content-Type application/json and body `{"error": "Bad request:
oops"}`, and that body parses back as the JSON object with value exactly
the display message. -/
theorem error_response_wire_shape_witness :
    error_response (ServerError.BadRequest "oops") =
      some ⟨400, [("Content-Type", "application/json")],
        "\x7b\x22error\x22: \x22Bad request: oops\x22\x7d"⟩
    ∧ parseErrorShape "\x7b\x22error\x22: \x22Bad request: oops\x22\x7d"
        = some "Bad request: oops" := by
  have h := error_response_wire_shape (ServerError.BadRequest "oops")
  exact ⟨h.1, h.2 (by decide)⟩

/-- C8 (amended): for every completed request the dispatch boundary emits
exactly one log line.  When the router succeeds, the line is
`METHOD PATH - 200` at info severity regardless of the actual status of
the returned response (the literal text 200, not the response's status),
or a `Response conversion error: <m>` line at error severity when
converting the handler's Response fails.  When the router fails, the line
carries the mapped status: at warn severity for 404, at error severity
(with the message appended) for every other status. -/
theorem handle_request_log_spec (router : Router) (req : Request)
    (resp : HyperResponse) (logs : List LogLine)
    (h : handle_request router req = some (resp, logs)) :
    logs.length = 1
    ∧ (∀ response, router.handle req = Except.ok response →
        (response.into_hyper_response = Except.ok resp
          ∧ logs = [⟨LogLevel.info, req.method.display ++ " " ++ req.path ++ " - 200"⟩])
        ∨ (∃ e, response.into_hyper_response = Except.error e
          ∧ logs = [⟨LogLevel.fail, "Response conversion error: " ++ e.display⟩]))
    ∧ (∀ e, router.handle req = Except.error e → e.status_code = 404 →
        logs = [⟨LogLevel.warn, req.method.display ++ " " ++ req.path ++ " - 404"⟩]
        ∧ resp.status = 404)
    ∧ (∀ e, router.handle req = Except.error e → e.status_code ≠ 404 →
        logs = [⟨LogLevel.fail, req.method.display ++ " " ++ req.path ++ " - "
          ++ toString e.status_code ++ " (" ++ e.display ++ ")"⟩]
        ∧ resp.status = e.status_code) := by
  unfold handle_request at h
  cases hh : router.handle req with
  | ok response =>
    rw [hh] at h
    simp only [] at h
    cases hc : response.into_hyper_response with
    | ok hr =>
      rw [hc] at h
      simp only [Option.some.injEq, Prod.mk.injEq] at h
      obtain ⟨h1, h2⟩ := h
      subst h1
      subst h2
      refine ⟨rfl, ?_, ?_, ?_⟩
      · intro response' hresp
        injection hresp with he
        subst he
        exact Or.inl ⟨hc, rfl⟩
      · intro e he _
        simp at he
      · intro e he _
        simp at he
    | error e' =>
      rw [hc] at h
      simp only [] at h
      rw [error_response_eq e'] at h
      simp only [Option.map_some', Option.some.injEq, Prod.mk.injEq] at h
      obtain ⟨h1, h2⟩ := h
      subst h1
      subst h2
      refine ⟨rfl, ?_, ?_, ?_⟩
      · intro response' hresp
        injection hresp with he
        subst he
        exact Or.inr ⟨e', hc, rfl⟩
      · intro e he _
        simp at he
      · intro e he _
        simp at he
  | error e =>
    rw [hh] at h
    simp only [] at h
    rw [error_response_eq e] at h
    by_cases h404 : e.status_code = 404
    · simp only [h404, if_pos rfl, Option.map_some', Option.some.injEq,
        Prod.mk.injEq] at h
      obtain ⟨h1, h2⟩ := h
      subst h1
      subst h2
      refine ⟨rfl, ?_, ?_, ?_⟩
      · intro response' hresp
        simp at hresp
      · intro e' he' _
        injection he' with he''
        subst he''
        exact ⟨rfl, rfl⟩
      · intro e' he' hne
        injection he' with he''
        subst he''
        exact absurd h404 hne
    · simp only [if_neg h404, Option.map_some', Option.some.injEq,
        Prod.mk.injEq] at h
      obtain ⟨h1, h2⟩ := h
      subst h1
      subst h2
      refine ⟨rfl, ?_, ?_, ?_⟩
      · intro response' hresp
        simp at hresp
      · intro e' he' h404'
        injection he' with he''
        subst he''
        exact absurd h404' h404
      · intro e' he' _
        injection he' with he''
        subst he''
        exact ⟨rfl, rfl⟩

/-- A one-route router answering GET /health with a 200 text response. -/
def healthRouter : Router :=
  Router.new.get "/health" fun _ => Except.ok (Response.new.text "ok")

/-- A GET request for /health. -/
def healthReq : Request := ⟨HttpMethod.GET, "/health"⟩

/-- A GET request for a path with no registered route. -/
def missingReq : Request := ⟨HttpMethod.GET, "/missing"⟩

/-- Witness for C8 (amended): a successful request yields exactly one
info log line "GET /health - 200"; an unrouted request yields a warn log
line "GET /missing - 404" and the returned 404 response. -/
theorem handle_request_log_spec_witness :
    ([⟨LogLevel.info, "GET /health - 200"⟩] : List LogLine).length = 1
    ∧ ((⟨404, [("Content-Type", "application/json")],
          "\x7b\x22error\x22: \x22Route not found: GET /missing\x22\x7d"⟩ :
        HyperResponse).status = 404) := by
  have h1 := (handle_request_log_spec healthRouter healthReq
    ⟨200, [("Content-Type", "text/plain")], "ok"⟩
    [⟨LogLevel.info, "GET /health - 200"⟩] (by decide)).1
  have h2 := (handle_request_log_spec healthRouter missingReq
    ⟨404, [("Content-Type", "application/json")],
      "\x7b\x22error\x22: \x22Route not found: GET /missing\x22\x7d"⟩
    [⟨LogLevel.warn, "GET /missing - 404"⟩] (by decide)).2.2.1
    (ServerError.RouteNotFound "GET" "/missing") (by decide) (by decide)
  exact ⟨h1, h2.2⟩

/-- A route whose handler answers with a non-default 201 status. -/
def createdRouter : Router :=
  Router.new.get "/created" fun _ => Except.ok ((Response.new.setStatus 201).text "made")

/-- A GET request for /created. -/
def createdReq : Request := ⟨HttpMethod.GET, "/created"⟩

/-- Counterexample to C8 as stated: the handler returns a response whose
status is 201 and the dispatch boundary returns that 201 response, yet
the single log line reads "GET /created - 200" — the logged STATUS is
the hardcoded text 200, not the status of the response actually
returned. -/
theorem handle_request_log_counterexample :
    handle_request createdRouter createdReq =
      some (⟨201, [("Content-Type", "text/plain")], "made"⟩,
        [⟨LogLevel.info, "GET /created - 200"⟩])
    ∧ (201 : Nat) ≠ 200 := ⟨by decide, by decide⟩
